import Mathlib

/-!
Verification of the Chore-App core (chore synchronization and
state-transition engine) against its design specification.

The embedding follows `src/App.tsx` and `src/types.ts`:
* the data model (`Role`, `ChoreStatus`, `Profile`, `Chore`) mirrors the
  exported TypeScript types;
* remote documents are schema-less, so raw records carry every field as an
  `Option` (`none` models an absent or `null` field, which is exactly what
  the `??` nullish-coalescing defaults in the snapshot handler react to);
* the effectful operations (`addChore`, `uploadProof`, the `onSnapshot`
  handler) become pure functions from their inputs and an explicit
  environment (permission outcome, picker outcome, success of each
  asynchronous stage) to the writes and alerts they produce.
-/

namespace ChoreApp

/-- `Role` from src/types.ts: `"parent" | "child"`. -/
inductive Role where
  | parent
  | child
deriving DecidableEq, Repr

/-- `ChoreStatus` from src/types.ts: `"pending" | "completed"`. -/
inductive ChoreStatus where
  | pending
  | completed
deriving DecidableEq, Repr

instance : BEq ChoreStatus := ⟨fun a b => decide (a = b)⟩

/-- `Profile` from src/types.ts. -/
structure Profile where
  displayName : String
  familyCode : String
  role : Role
deriving DecidableEq, Repr

/-- `Chore` from src/types.ts. Optional fields are `Option`s; the
timestamps (`createdAt`, `completedAt`) are modelled as natural numbers. -/
structure Chore where
  id : String
  title : String
  assignedTo : String
  familyCode : String
  status : ChoreStatus
  photoUrl : Option String
  completedBy : Option String
  createdAt : Option Nat
  completedAt : Option Nat
deriving DecidableEq, Repr

/-- A raw Firestore document, before normalization: every field may be
absent (`none` models both a missing field and an explicit `null`). -/
structure RawDoc where
  title : Option String
  assignedTo : Option String
  familyCode : Option String
  status : Option ChoreStatus
  photoUrl : Option String
  completedBy : Option String
  createdAt : Option Nat
  completedAt : Option Nat
deriving DecidableEq, Repr

/-- The document written by `addChore` (src/App.tsx lines 114-121):
`addDoc(collection(db, "chores"), { title, assignedTo, familyCode,
status: "pending", photoUrl: null, createdAt: serverTimestamp() })`.
`photoUrl := none` models the explicit `null`. -/
structure AddDoc where
  title : String
  assignedTo : String
  familyCode : String
  status : ChoreStatus
  photoUrl : Option String
  createdAt : Nat
deriving DecidableEq, Repr

/-- Strip leading whitespace from a character list. -/
def dropLeadingWs : List Char → List Char
  | [] => []
  | c :: cs => if c.isWhitespace then dropLeadingWs cs else c :: cs

/-- JavaScript `String.prototype.trim`: strip leading and trailing
whitespace (a structurally recursive model, so proofs can evaluate it). -/
def jsTrim (s : String) : String :=
  String.mk (dropLeadingWs (dropLeadingWs s.data.reverse).reverse)

/-- JavaScript `String.prototype.toLowerCase`, restricted to the ASCII
case mapping (`Char.toLower`), which suffices for the names and codes in
scope here. -/
def jsToLower (s : String) : String :=
  String.mk (s.data.map Char.toLower)

/-- `addChore` (src/App.tsx lines 105-128) as a pure function: given the
active profile (possibly absent), the two text inputs and the server
timestamp, it returns the single document it writes, or `none` when it
bails out (`!profile`, or a blank title/assignee after trimming —
`!s.trim()` in JS is true exactly when the trimmed string is empty). -/
def addChore (profile : Option Profile) (newChoreTitle assignee : String)
    (now : Nat) : Option AddDoc :=
  match profile with
  | none => none
  | some p =>
    if jsTrim newChoreTitle = "" ∨ jsTrim assignee = "" then
      none
    else
      some { title := jsTrim newChoreTitle
             assignedTo := jsTrim assignee
             familyCode := p.familyCode
             status := ChoreStatus.pending
             photoUrl := none
             createdAt := now }

/-- `childChores` (src/App.tsx lines 175-182): `[]` unless the profile is
present with role `child`; otherwise the filter
`chore.assignedTo?.toLowerCase().trim() ===
 profile.displayName.toLowerCase().trim()`. -/
def childChores (profile : Option Profile) (chores : List Chore) : List Chore :=
  match profile with
  | none => []
  | some p =>
    if p.role ≠ Role.child then []
    else
      chores.filter (fun c =>
        jsTrim (jsToLower c.assignedTo) == jsTrim (jsToLower p.displayName))

/-- The View Projector: the role-based branch of `App` (src/App.tsx lines
212-228) passes the full `chores` list to `ParentView` when
`profile.role === "parent"` and `childChores` to `ChildView` otherwise. -/
def projectChores (p : Profile) (chores : List Chore) : List Chore :=
  match p.role with
  | Role.parent => chores
  | Role.child => childChores (some p) chores

/-- The selected image asset (only its `uri` is consumed by the pipeline). -/
structure Asset where
  uri : String
deriving DecidableEq, Repr

/-- The environment of one `uploadProof` invocation: the outcome of the
permission request, of the picker, and the success of each asynchronous
stage (`fetch`/`blob`, `uploadBytes`, `getDownloadURL`, `updateDoc`),
plus the `Date.now()` timestamp. `pickerResult = none` models
`pickerResult.canceled || !pickerResult.assets?.length`. -/
structure UploadEnv where
  permissionGranted : Bool
  pickerResult : Option Asset
  fetchOk : Bool
  uploadOk : Bool
  downloadUrl : Option String
  updateOk : Bool
  now : Nat
deriving DecidableEq, Repr

/-- The document update written by `uploadProof` (src/App.tsx lines
160-166): `updateDoc(choreRef, { status: "completed", photoUrl,
completedBy, completedAt })`, targeting `doc(db, "chores", chore.id)`. -/
structure UpdateWrite where
  choreId : String
  status : ChoreStatus
  photoUrl : String
  completedBy : String
  completedAt : Nat
deriving DecidableEq, Repr

/-- The observable effects of one `uploadProof` invocation: storage
paths written by `uploadBytes`, repository updates applied by
`updateDoc`, and user-facing alert titles, in order. -/
structure UploadResult where
  uploads : List String
  writes : List UpdateWrite
  alerts : List String
deriving DecidableEq, Repr

/-- The storage path built at src/App.tsx lines 153-156:
`choreProofs/SfamilyCode/SchoreId-Stimestamp.jpg` (with S for the
interpolation sigil). -/
def storagePath (familyCode choreId : String) (now : Nat) : String :=
  "choreProofs/" ++ familyCode ++ "/" ++ choreId ++ "-" ++ toString now ++ ".jpg"

/-- `uploadProof` (src/App.tsx lines 130-173) as a pure function from the
profile, the chore and the invocation environment to its effects.
The `try` block covers `fetch`/`blob`, `uploadBytes`, `getDownloadURL`
and `updateDoc`; any rejection lands in the single `catch`, which raises
one "Upload failed" alert and performs nothing further. An upload is
recorded only when `uploadBytes` resolves; a `getDownloadURL` or
`updateDoc` failure therefore leaves the uploaded object orphaned. -/
def uploadProof (profile : Option Profile) (chore : Chore)
    (env : UploadEnv) : UploadResult :=
  match profile with
  | none => { uploads := [], writes := [], alerts := [] }
  | some p =>
    if ¬env.permissionGranted then
      { uploads := [], writes := [], alerts := ["Permission needed"] }
    else
      match env.pickerResult with
      | none => { uploads := [], writes := [], alerts := [] }
      | some _asset =>
        if ¬env.fetchOk then
          { uploads := [], writes := [], alerts := ["Upload failed"] }
        else
          let path := storagePath p.familyCode chore.id env.now
          if ¬env.uploadOk then
            { uploads := [], writes := [], alerts := ["Upload failed"] }
          else
            match env.downloadUrl with
            | none =>
              { uploads := [path], writes := [], alerts := ["Upload failed"] }
            | some url =>
              let w : UpdateWrite :=
                { choreId := chore.id
                  status := ChoreStatus.completed
                  photoUrl := url
                  completedBy := p.displayName
                  completedAt := env.now }
              if env.updateOk then
                { uploads := [path], writes := [w], alerts := [] }
              else
                { uploads := [path], writes := [], alerts := ["Upload failed"] }

/-- Applying one `updateDoc` merge to a chore record: exactly the four
fields present in the update object are replaced, every other field is
kept (Firestore `updateDoc` merges the named fields). -/
def applyWrite (w : UpdateWrite) (c : Chore) : Chore :=
  { c with
    status := w.status
    photoUrl := some w.photoUrl
    completedBy := some w.completedBy
    completedAt := some w.completedAt }

/-- The remote `chores` collection: an association list from document id
to chore record. -/
abbrev ChoreStore : Type := List (String × Chore)

/-- `updateDoc` at the store level: the record keyed by `w.choreId` (if
any) receives the merge, all other records are untouched. -/
def updateStore (w : UpdateWrite) (s : ChoreStore) : ChoreStore :=
  s.map (fun kc => if kc.1 == w.choreId then (kc.1, applyWrite w kc.2) else kc)

/-- Apply a batch of updates in order. -/
def applyWrites (ws : List UpdateWrite) (s : ChoreStore) : ChoreStore :=
  ws.foldl (fun st w => updateStore w st) s

/-- Look a chore up by document id. -/
def lookupChore (s : ChoreStore) (id : String) : Option Chore :=
  (s.find? (fun kc => kc.1 == id)).map (fun kc => kc.2)

/-- The chore created from an `addChore` document once the repository has
assigned it an id (`completedBy`/`completedAt` are absent on creation). -/
def choreOfAddDoc (id : String) (d : AddDoc) : Chore :=
  { id := id
    title := d.title
    assignedTo := d.assignedTo
    familyCode := d.familyCode
    status := d.status
    photoUrl := d.photoUrl
    completedBy := none
    createdAt := some d.createdAt
    completedAt := none }

/-- The two core operations that write to the `chores` collection:
`addChore` (a parent creating a chore; `freshId` is the id `addDoc`
assigns) and `uploadProof` (a child completing a chore). -/
inductive CoreOp where
  | create (freshId : String) (profile : Option Profile)
      (title assignee : String) (now : Nat)
  | upload (profile : Option Profile) (chore : Chore) (env : UploadEnv)

/-- Effect of one core operation on the remote `chores` collection. -/
def applyOp (op : CoreOp) (s : ChoreStore) : ChoreStore :=
  match op with
  | CoreOp.create freshId profile title assignee now =>
    match addChore profile title assignee now with
    | none => s
    | some d => s ++ [(freshId, choreOfAddDoc freshId d)]
  | CoreOp.upload profile chore env =>
    applyWrites (uploadProof profile chore env).writes s

/-- Effect of a sequence of core operations, first to last. -/
def applyOps (ops : List CoreOp) (s : ChoreStore) : ChoreStore :=
  ops.foldl (fun st op => applyOp op st) s

/-- The raw remote collection, keyed by document id. -/
abbrev RawStore : Type := List (String × RawDoc)

/-- Descending insertion by `createdAt` (ties keep earlier elements
first), modelling `orderBy("createdAt", "desc")`. -/
def insertByCreatedAtDesc (x : String × RawDoc) :
    List (String × RawDoc) → List (String × RawDoc)
  | [] => [x]
  | y :: ys =>
    if y.2.createdAt.getD 0 ≤ x.2.createdAt.getD 0 then x :: y :: ys
    else y :: insertByCreatedAtDesc x ys

/-- Sort a raw snapshot newest-`createdAt` first. -/
def sortByCreatedAtDesc (l : List (String × RawDoc)) : List (String × RawDoc) :=
  l.foldr insertByCreatedAtDesc []

/-- `familyQuery` (src/App.tsx lines 58-62): `query(collection(db,
"chores"), where("familyCode", "==", profile.familyCode),
orderBy("createdAt", "desc"))`. Firestore equality matches only documents
whose field is present and equal, and `orderBy` drops documents missing
the ordered field. -/
def familyQuery (store : RawStore) (code : String) : RawStore :=
  sortByCreatedAtDesc
    ((store.filter (fun kd => kd.2.familyCode == some code)).filter
      (fun kd => kd.2.createdAt.isSome))

/-- Normalization of one raw snapshot document (src/App.tsx lines 67-79):
each `??` default is `Option.getD`; fields without a default pass
through. -/
def normalizeDoc (id : String) (data : RawDoc) : Chore :=
  { id := id
    title := data.title.getD "Untitled chore"
    assignedTo := data.assignedTo.getD ""
    familyCode := data.familyCode.getD ""
    status := data.status.getD ChoreStatus.pending
    photoUrl := data.photoUrl
    completedBy := data.completedBy
    createdAt := data.createdAt
    completedAt := data.completedAt }

/-- The Sync Engine's local state: the held chore list, the
`loadingChores` flag, and the alerts raised so far. -/
structure SyncState where
  chores : List Chore
  loading : Bool
  alerts : List String
deriving DecidableEq, Repr

/-- State on entering the subscription effect (src/App.tsx line 57):
no chores yet, `setLoadingChores(true)`. -/
def initSyncState : SyncState :=
  { chores := [], loading := true, alerts := [] }

/-- One delivery on the subscription: either a full snapshot of the remote
collection, or the error signal. -/
inductive SnapEvent where
  | snapshot (store : RawStore)
  | failure

/-- The `onSnapshot` callbacks (src/App.tsx lines 64-90). A snapshot
replaces the held list wholesale with the normalized query results and
clears `loadingChores`; the error callback raises the "Sync error" alert
and clears `loadingChores`, touching nothing else. -/
def syncStep (code : String) (st : SyncState) (ev : SnapEvent) : SyncState :=
  match ev with
  | SnapEvent.snapshot store =>
    { chores := (familyQuery store code).map (fun kd => normalizeDoc kd.1 kd.2)
      loading := false
      alerts := st.alerts }
  | SnapEvent.failure =>
    { chores := st.chores
      loading := false
      alerts := st.alerts ++ ["Sync error"] }

/-- The Sync Engine after a sequence of deliveries. -/
def syncRun (code : String) (evs : List SnapEvent) : SyncState :=
  evs.foldl (syncStep code) initSyncState

/-! Sample data used by witnesses. -/

/-- A child profile used in concrete scenarios. -/
def samProfile : Profile :=
  { displayName := "Sam", familyCode := "abc12", role := Role.child }

/-- A chore assigned to "sam " (matches "Sam" case/whitespace-insensitively). -/
def dishesChore : Chore :=
  { id := "c1", title := "Dishes", assignedTo := "sam ", familyCode := "abc12"
    status := ChoreStatus.pending, photoUrl := none, completedBy := none
    createdAt := some 1, completedAt := none }

/-- A chore assigned to a different child. -/
def trashChore : Chore :=
  { id := "c2", title := "Trash", assignedTo := "Alex", familyCode := "abc12"
    status := ChoreStatus.pending, photoUrl := none, completedBy := none
    createdAt := some 2, completedAt := none }

/-- An environment in which every stage of the upload pipeline succeeds. -/
def okEnv : UploadEnv :=
  { permissionGranted := true, pickerResult := some { uri := "file:photo" }
    fetchOk := true, uploadOk := true, downloadUrl := some "https:url"
    updateOk := true, now := 5 }

/-- C6: `addChore` with an active profile writes exactly one document,
with the trimmed title and assignee, the profile's family code,
`status = pending` and `photoUrl = null`, when both inputs are non-blank
after trimming; it writes nothing when either is blank after trimming. -/
theorem addChore_spec (p : Profile) (title assignee : String) (now : Nat) :
    (jsTrim title ≠ "" → jsTrim assignee ≠ "" →
      addChore (some p) title assignee now =
        some { title := jsTrim title, assignedTo := jsTrim assignee
               familyCode := p.familyCode, status := ChoreStatus.pending
               photoUrl := none, createdAt := now }) ∧
    (jsTrim title = "" ∨ jsTrim assignee = "" →
      addChore (some p) title assignee now = none) := by
  refine ⟨fun h1 h2 => ?_, fun h => ?_⟩
  · simp [addChore, h1, h2]
  · simp [addChore, h]

theorem addChore_spec_witness :
    addChore (some samProfile) " Dishes " "Sam" 7 =
      some { title := jsTrim " Dishes ", assignedTo := jsTrim "Sam"
             familyCode := samProfile.familyCode, status := ChoreStatus.pending
             photoUrl := none, createdAt := 7 } :=
  (addChore_spec samProfile " Dishes " "Sam" 7).1 (by decide) (by decide)

/-- C7: when photo-library permission is denied, `uploadProof` performs
no storage upload and no repository write and raises exactly the
"Permission needed" alert. -/
theorem uploadProof_permission_denied (p : Profile) (chore : Chore)
    (env : UploadEnv) (hperm : env.permissionGranted = false) :
    uploadProof (some p) chore env =
      { uploads := [], writes := [], alerts := ["Permission needed"] } := by
  simp [uploadProof, hperm]

theorem uploadProof_permission_denied_witness :
    uploadProof (some samProfile) dishesChore
        { okEnv with permissionGranted := false } =
      { uploads := [], writes := [], alerts := ["Permission needed"] } :=
  uploadProof_permission_denied samProfile dishesChore
    { okEnv with permissionGranted := false } rfl

/-- C9: on a subscription delivery error, the Sync Engine retains the
previously held chore list unchanged and raises a user-facing notice. -/
theorem syncStep_failure_retains (code : String) (st : SyncState) :
    (syncStep code st SnapEvent.failure).chores = st.chores ∧
    (syncStep code st SnapEvent.failure).alerts = st.alerts ++ ["Sync error"] :=
  ⟨rfl, rfl⟩

/-- C2: the View Projector for a child profile is a strict filter —
its output is a sublist of the input holding exactly the chores whose
`assignedTo`, lowercased and trimmed, equals the profile's
`displayName`, lowercased and trimmed — and for a parent profile it is
the identity. -/
theorem projectChores_spec (p : Profile) (chores : List Chore) :
    (p.role = Role.child →
      List.Sublist (projectChores p chores) chores ∧
      ∀ c, c ∈ projectChores p chores ↔
        c ∈ chores ∧ jsTrim (jsToLower c.assignedTo) = jsTrim (jsToLower p.displayName)) ∧
    (p.role = Role.parent → projectChores p chores = chores) := by
  obtain ⟨dn, fc, r⟩ := p
  refine ⟨fun hrole => ?_, fun hrole => ?_⟩
  · subst hrole
    refine ⟨?_, fun c => ?_⟩
    · simp only [projectChores, childChores, ne_eq, not_true_eq_false,
        if_false]
      exact List.filter_sublist chores
    · simp [projectChores, childChores, List.mem_filter]
  · subst hrole
    simp [projectChores]

theorem projectChores_spec_witness :
    List.Sublist (projectChores samProfile [dishesChore, trashChore])
      [dishesChore, trashChore] ∧
    ∀ c, c ∈ projectChores samProfile [dishesChore, trashChore] ↔
      c ∈ [dishesChore, trashChore] ∧
      jsTrim (jsToLower c.assignedTo) = jsTrim (jsToLower samProfile.displayName) :=
  (projectChores_spec samProfile [dishesChore, trashChore]).1 rfl

/-- C5: when the pipeline reaches the final stage, the repository update
carries exactly `status = completed`, `photoUrl` = the retrieval URL,
`completedBy` = the profile's display name and `completedAt`; merging it
into any chore record leaves `id`, `title`, `assignedTo`, `familyCode`
and `createdAt` unchanged. -/
theorem uploadProof_update_frame (p : Profile) (chore : Chore)
    (env : UploadEnv) (a : Asset) (url : String)
    (hperm : env.permissionGranted = true)
    (hpick : env.pickerResult = some a)
    (hfetch : env.fetchOk = true)
    (hup : env.uploadOk = true)
    (hurl : env.downloadUrl = some url)
    (hupd : env.updateOk = true) :
    (uploadProof (some p) chore env).writes =
      [{ choreId := chore.id, status := ChoreStatus.completed, photoUrl := url
         completedBy := p.displayName, completedAt := env.now }] ∧
    ∀ (w : UpdateWrite) (c : Chore),
      w ∈ (uploadProof (some p) chore env).writes →
      (applyWrite w c).id = c.id ∧
      (applyWrite w c).title = c.title ∧
      (applyWrite w c).assignedTo = c.assignedTo ∧
      (applyWrite w c).familyCode = c.familyCode ∧
      (applyWrite w c).createdAt = c.createdAt ∧
      (applyWrite w c).status = ChoreStatus.completed ∧
      (applyWrite w c).photoUrl = some url ∧
      (applyWrite w c).completedBy = some p.displayName ∧
      (applyWrite w c).completedAt = some env.now := by
  have hw : (uploadProof (some p) chore env).writes =
      [{ choreId := chore.id, status := ChoreStatus.completed, photoUrl := url
         completedBy := p.displayName, completedAt := env.now }] := by
    simp [uploadProof, hperm, hpick, hfetch, hup, hurl, hupd]
  refine ⟨hw, fun w c hmem => ?_⟩
  rw [hw] at hmem
  simp only [List.mem_singleton] at hmem
  subst hmem
  simp [applyWrite]

theorem uploadProof_update_frame_witness :
    (uploadProof (some samProfile) dishesChore okEnv).writes =
      [{ choreId := dishesChore.id, status := ChoreStatus.completed
         photoUrl := "https:url", completedBy := samProfile.displayName
         completedAt := okEnv.now }] ∧
    ∀ (w : UpdateWrite) (c : Chore),
      w ∈ (uploadProof (some samProfile) dishesChore okEnv).writes →
      (applyWrite w c).id = c.id ∧
      (applyWrite w c).title = c.title ∧
      (applyWrite w c).assignedTo = c.assignedTo ∧
      (applyWrite w c).familyCode = c.familyCode ∧
      (applyWrite w c).createdAt = c.createdAt ∧
      (applyWrite w c).status = ChoreStatus.completed ∧
      (applyWrite w c).photoUrl = some "https:url" ∧
      (applyWrite w c).completedBy = some samProfile.displayName ∧
      (applyWrite w c).completedAt = some okEnv.now :=
  uploadProof_update_frame samProfile dishesChore okEnv
    { uri := "file:photo" } "https:url" rfl rfl rfl rfl rfl rfl

/-- C4: when the upload stage or the URL-retrieval stage fails, the
repository update is never executed (the store is left untouched, so the
chore keeps its pending record and gains no photoUrl), the failure is
surfaced as exactly one alert, and no retry happens (at most one upload
attempt is recorded). -/
theorem uploadProof_upload_failure (p : Profile) (chore : Chore)
    (env : UploadEnv) (a : Asset)
    (hperm : env.permissionGranted = true)
    (hpick : env.pickerResult = some a)
    (hfetch : env.fetchOk = true)
    (hfail : env.uploadOk = false ∨ env.downloadUrl = none) :
    (uploadProof (some p) chore env).writes = [] ∧
    (uploadProof (some p) chore env).alerts = ["Upload failed"] ∧
    (uploadProof (some p) chore env).uploads.length ≤ 1 ∧
    ∀ store : ChoreStore,
      applyWrites (uploadProof (some p) chore env).writes store = store := by
  have h : (uploadProof (some p) chore env).writes = [] ∧
      (uploadProof (some p) chore env).alerts = ["Upload failed"] ∧
      (uploadProof (some p) chore env).uploads.length ≤ 1 := by
    rcases hfail with hup | hurl
    · simp [uploadProof, hperm, hpick, hfetch, hup]
    · by_cases hup : env.uploadOk <;>
        simp [uploadProof, hperm, hpick, hfetch, hup, hurl]
  refine ⟨h.1, h.2.1, h.2.2, fun store => ?_⟩
  rw [h.1]
  rfl

theorem uploadProof_upload_failure_witness :
    (uploadProof (some samProfile) dishesChore
        { okEnv with downloadUrl := none }).writes = [] ∧
    (uploadProof (some samProfile) dishesChore
        { okEnv with downloadUrl := none }).alerts = ["Upload failed"] ∧
    (uploadProof (some samProfile) dishesChore
        { okEnv with downloadUrl := none }).uploads.length ≤ 1 ∧
    ∀ store : ChoreStore,
      applyWrites (uploadProof (some samProfile) dishesChore
        { okEnv with downloadUrl := none }).writes store = store :=
  uploadProof_upload_failure samProfile dishesChore
    { okEnv with downloadUrl := none } { uri := "file:photo" }
    rfl rfl rfl (Or.inr rfl)

/-- The storage path exactly as the specification words it:
`choreProofs/SfamilyCode/SchoreId-SuploadTimestamp` (with S for the
interpolation sigil), with no file extension. Kept separate from
`storagePath` so the two renderings can be compared. -/
def specStoragePath (familyCode choreId : String) (ts : Nat) : String :=
  "choreProofs/" ++ familyCode ++ "/" ++ choreId ++ "-" ++ toString ts

/-- C8 counterexample: on a fully successful invocation the path actually
used carries a trailing `.jpg`, so it differs from the extension-less
template the claim states. -/
theorem storagePath_claim_counterexample :
    (uploadProof (some samProfile) dishesChore okEnv).uploads =
      [storagePath "abc12" "c1" 5] ∧
    storagePath "abc12" "c1" 5 ≠ specStoragePath "abc12" "c1" 5 := by
  exact ⟨by decide, by decide⟩

/-- C8 (amended): for every invocation whose upload stage runs and
succeeds, the single storage path written is
`choreProofs/SfamilyCode/SchoreId-Stimestamp.jpg`, derived only from the
profile's family code, the chore's id and the upload timestamp. -/
theorem uploadProof_storage_path (p : Profile) (chore : Chore)
    (env : UploadEnv) (a : Asset)
    (hperm : env.permissionGranted = true)
    (hpick : env.pickerResult = some a)
    (hfetch : env.fetchOk = true)
    (hup : env.uploadOk = true) :
    (uploadProof (some p) chore env).uploads =
      [storagePath p.familyCode chore.id env.now] ∧
    storagePath p.familyCode chore.id env.now =
      "choreProofs/" ++ p.familyCode ++ "/" ++ chore.id ++ "-" ++
        toString env.now ++ ".jpg" := by
  refine ⟨?_, rfl⟩
  cases hurl : env.downloadUrl with
  | none => simp [uploadProof, hperm, hpick, hfetch, hup, hurl]
  | some url =>
    by_cases hupd : env.updateOk <;>
      simp [uploadProof, hperm, hpick, hfetch, hup, hurl, hupd]

theorem uploadProof_storage_path_witness :
    (uploadProof (some samProfile) dishesChore okEnv).uploads =
      [storagePath samProfile.familyCode dishesChore.id okEnv.now] ∧
    storagePath samProfile.familyCode dishesChore.id okEnv.now =
      "choreProofs/" ++ samProfile.familyCode ++ "/" ++ dishesChore.id ++
        "-" ++ toString okEnv.now ++ ".jpg" :=
  uploadProof_storage_path samProfile dishesChore okEnv
    { uri := "file:photo" } rfl rfl rfl rfl

/-- Membership is preserved by descending insertion. -/
theorem mem_insertByCreatedAtDesc {x y : String × RawDoc}
    {l : List (String × RawDoc)} :
    y ∈ insertByCreatedAtDesc x l ↔ y = x ∨ y ∈ l := by
  induction l with
  | nil => simp [insertByCreatedAtDesc]
  | cons z zs ih =>
    by_cases hle : z.2.createdAt.getD 0 ≤ x.2.createdAt.getD 0
    · simp [insertByCreatedAtDesc, hle]
    · simp only [insertByCreatedAtDesc, if_neg hle, List.mem_cons, ih]
      tauto

/-- Sorting a snapshot by `createdAt` descending preserves membership. -/
theorem mem_sortByCreatedAtDesc {y : String × RawDoc}
    {l : List (String × RawDoc)} :
    y ∈ sortByCreatedAtDesc l ↔ y ∈ l := by
  induction l with
  | nil => simp [sortByCreatedAtDesc]
  | cons z zs ih =>
    simp only [sortByCreatedAtDesc, List.foldr_cons] at *
    rw [mem_insertByCreatedAtDesc, ih, List.mem_cons]

/-- Every document delivered by `familyQuery` has its `familyCode` field
present and equal to the queried code. -/
theorem familyQuery_familyCode {store : RawStore} {code : String}
    {kd : String × RawDoc} (h : kd ∈ familyQuery store code) :
    kd.2.familyCode = some code := by
  unfold familyQuery at h
  rw [mem_sortByCreatedAtDesc] at h
  have h1 := List.of_mem_filter (List.mem_of_mem_filter h)
  simpa using h1

/-- One sync delivery preserves the family-code invariant on the held
chore list. -/
theorem syncStep_familyCode_inv (code : String) (st : SyncState)
    (ev : SnapEvent) (h : ∀ c ∈ st.chores, c.familyCode = code) :
    ∀ c ∈ (syncStep code st ev).chores, c.familyCode = code := by
  cases ev with
  | failure => exact h
  | snapshot store =>
    intro c hc
    simp only [syncStep, List.mem_map] at hc
    obtain ⟨kd, hkd, hceq⟩ := hc
    have hfc := familyQuery_familyCode hkd
    subst hceq
    simp [normalizeDoc, hfc]

/-- C3: after any sequence of deliveries, every chore held by the Sync
Engine has `familyCode` equal to the active profile's family code. -/
theorem syncRun_familyCode (code : String) (evs : List SnapEvent)
    (c : Chore) (hc : c ∈ (syncRun code evs).chores) :
    c.familyCode = code := by
  suffices hs : ∀ st : SyncState, (∀ x ∈ st.chores, x.familyCode = code) →
      ∀ x ∈ (evs.foldl (syncStep code) st).chores, x.familyCode = code by
    exact hs initSyncState (by simp [initSyncState]) c hc
  clear hc
  induction evs with
  | nil => exact fun st hst => hst
  | cons e es ih =>
    intro st hst
    exact ih (syncStep code st e) (syncStep_familyCode_inv code st e hst)

/-- A raw document carrying the sample chore for family "abc12". -/
def dishesRaw : RawDoc :=
  { title := some "Dishes", assignedTo := some "Sam"
    familyCode := some "abc12", status := some ChoreStatus.pending
    photoUrl := none, completedBy := none, createdAt := some 1
    completedAt := none }

theorem syncRun_familyCode_witness :
    (normalizeDoc "c1" dishesRaw) ∈
      (syncRun "abc12" [SnapEvent.snapshot [("c1", dishesRaw)]]).chores ∧
    (normalizeDoc "c1" dishesRaw).familyCode = "abc12" :=
  ⟨by decide,
   syncRun_familyCode "abc12" [SnapEvent.snapshot [("c1", dishesRaw)]]
     (normalizeDoc "c1" dishesRaw) (by decide)⟩

/-- A raw document whose `title` field is present but equal to the empty
string (the remote store is schema-less, so nothing rules this out). -/
def emptyTitleRaw : RawDoc :=
  { title := some "", assignedTo := some "Sam", familyCode := some "fam"
    status := some ChoreStatus.pending, photoUrl := none
    completedBy := none, createdAt := some 1, completedAt := none }

/-- C10 counterexample: a present-but-empty `title` passes normalization
unchanged, so the Sync Engine can hold a chore whose title is empty —
the `??` default only replaces an absent (null/undefined) title. -/
theorem syncRun_empty_title_counterexample :
    (syncRun "fam" [SnapEvent.snapshot [("d1", emptyTitleRaw)]]).chores =
      [normalizeDoc "d1" emptyTitleRaw] ∧
    (normalizeDoc "d1" emptyTitleRaw).title = "" := by
  exact ⟨by decide, by decide⟩

/-- C10 (amended): normalization replaces an absent title with the
constant "Untitled chore", and passes any present title — the empty
string included — through unchanged. -/
theorem normalizeDoc_title_default (id : String) (d : RawDoc) :
    (d.title = none → (normalizeDoc id d).title = "Untitled chore") ∧
    (∀ s, d.title = some s → (normalizeDoc id d).title = s) := by
  refine ⟨fun h => ?_, fun s h => ?_⟩
  · simp [normalizeDoc, h]
  · simp [normalizeDoc, h]

theorem normalizeDoc_title_default_witness :
    (normalizeDoc "d2" { emptyTitleRaw with title := none }).title =
      "Untitled chore" :=
  (normalizeDoc_title_default "d2" { emptyTitleRaw with title := none }).1 rfl

/-- A chore already found by id is still found, unchanged, after new
records are appended at the end of the collection. -/
theorem lookupChore_append (s : ChoreStore) (t : ChoreStore) (id : String)
    (c : Chore) (h : lookupChore s id = some c) :
    lookupChore (s ++ t) id = some c := by
  unfold lookupChore at h ⊢
  rw [List.find?_append]
  cases hf : List.find? (fun kc => kc.1 == id) s with
  | none => rw [hf] at h; simp at h
  | some kc =>
    rw [hf] at h
    simpa using h

/-- Looking up after one store update finds the (possibly merged) record
under the same id. -/
theorem lookupChore_updateStore (w : UpdateWrite) (s : ChoreStore)
    (id : String) (c : Chore) (h : lookupChore s id = some c) :
    lookupChore (updateStore w s) id =
      some (if id == w.choreId then applyWrite w c else c) := by
  unfold lookupChore at h ⊢
  unfold updateStore
  rw [List.find?_map]
  have hpred : ((fun kc : String × Chore => kc.1 == id) ∘
      (fun kc : String × Chore =>
        if kc.1 == w.choreId then (kc.1, applyWrite w kc.2) else kc)) =
      fun kc : String × Chore => kc.1 == id := by
    funext kc
    by_cases hw : kc.1 = w.choreId <;> simp [hw]
  rw [hpred]
  cases hf : List.find? (fun kc : String × Chore => kc.1 == id) s with
  | none => rw [hf] at h; simp at h
  | some kcv =>
    rw [hf] at h
    have hkc : kcv.2 = c := by simpa using h
    have hid : kcv.1 = id := by
      have hp := List.find?_some hf
      simpa using hp
    subst hkc
    subst hid
    by_cases hw : kcv.1 = w.choreId <;> simp [hw]

/-- Every repository update the upload pipeline ever emits carries
`status = completed` — it is the only status write in the core. -/
theorem uploadProof_writes_completed (profile : Option Profile)
    (chore : Chore) (env : UploadEnv) :
    ∀ w ∈ (uploadProof profile chore env).writes,
      w.status = ChoreStatus.completed := by
  obtain ⟨perm, pick, f, u, durl, upd, n⟩ := env
  cases profile <;> cases perm <;> cases pick <;> cases f <;> cases u <;>
    cases durl <;> cases upd <;> simp [uploadProof]

/-- "This id holds a completed chore" as a store predicate. -/
def CompletedIn (s : ChoreStore) (id : String) : Prop :=
  ∃ c, lookupChore s id = some c ∧ c.status = ChoreStatus.completed

theorem applyWrites_cons (w : UpdateWrite) (ws : List UpdateWrite)
    (s : ChoreStore) :
    applyWrites (w :: ws) s = applyWrites ws (updateStore w s) := rfl

/-- A batch of completed-status updates preserves `CompletedIn`. -/
theorem applyWrites_preserves_completed (ws : List UpdateWrite)
    (s : ChoreStore) (id : String)
    (hws : ∀ w ∈ ws, w.status = ChoreStatus.completed)
    (h : CompletedIn s id) : CompletedIn (applyWrites ws s) id := by
  induction ws generalizing s with
  | nil => exact h
  | cons w ws ih =>
    rw [applyWrites_cons]
    refine ih (updateStore w s)
      (fun w' hw' => hws w' (List.mem_cons_of_mem _ hw')) ?_
    obtain ⟨c, hc, hst⟩ := h
    refine ⟨if id == w.choreId then applyWrite w c else c,
      lookupChore_updateStore w s id c hc, ?_⟩
    by_cases hid : id == w.choreId
    · simp [hid, applyWrite, hws w (List.mem_cons_self w ws)]
    · simp [hid, hst]

/-- Each core operation preserves `CompletedIn`: creation only appends a
fresh pending record, and the upload pipeline only writes
`status = completed`. -/
theorem applyOp_preserves_completed (op : CoreOp) (s : ChoreStore)
    (id : String) (h : CompletedIn s id) :
    CompletedIn (applyOp op s) id := by
  cases op with
  | create freshId profile title assignee now =>
    obtain ⟨c, hc, hst⟩ := h
    cases hadd : addChore profile title assignee now with
    | none => exact ⟨c, by simpa [applyOp, hadd] using hc, hst⟩
    | some d =>
      exact ⟨c, by
        simp only [applyOp, hadd]
        exact lookupChore_append s _ id c hc, hst⟩
  | upload profile chore env =>
    exact applyWrites_preserves_completed _ s id
      (uploadProof_writes_completed profile chore env) h

/-- C1: along every sequence of core operations, a chore that is
completed stays completed — `addChore` only appends fresh pending
records and the upload pipeline's only status write sets completed. -/
theorem applyOps_status_monotone (ops : List CoreOp) (s : ChoreStore)
    (id : String) (c : Chore) (hc : lookupChore s id = some c)
    (hcomp : c.status = ChoreStatus.completed) :
    ∃ c', lookupChore (applyOps ops s) id = some c' ∧
      c'.status = ChoreStatus.completed := by
  have h0 : CompletedIn s id := ⟨c, hc, hcomp⟩
  clear hc hcomp
  suffices hs : CompletedIn (applyOps ops s) id from hs
  induction ops generalizing s with
  | nil => exact h0
  | cons op ops ih =>
    exact ih (applyOp op s) (applyOp_preserves_completed op s id h0)

/-- The sample chore after completion. -/
def doneChore : Chore :=
  { dishesChore with
    status := ChoreStatus.completed
    photoUrl := some "https:url"
    completedBy := some "Sam"
    completedAt := some 5 }

theorem applyOps_status_monotone_witness :
    ∃ c', lookupChore
        (applyOps
          [CoreOp.create "c9" (some samProfile) "Laundry" "Alex" 9,
           CoreOp.upload (some samProfile) trashChore okEnv]
          [("c1", doneChore), ("c2", trashChore)]) "c1" = some c' ∧
      c'.status = ChoreStatus.completed :=
  applyOps_status_monotone
    [CoreOp.create "c9" (some samProfile) "Laundry" "Alex" 9,
     CoreOp.upload (some samProfile) trashChore okEnv]
    [("c1", doneChore), ("c2", trashChore)] "c1" doneChore rfl rfl

end ChoreApp
